import Mathlib

/-!
Verification of the Hackflight flight-control core (`src/hackflight.hpp`,
`src/stabilizer.hpp`) against its natural-language specification.

The C++ code is shallowly embedded over `ℚ` (exact rational arithmetic in
place of IEEE `float`).  `M_PI` is represented by a parameter `pi : ℚ`,
since the claims under study are independent of its exact value; concrete
evaluations instantiate it with the rational approximation `355/113`.

The helper class `Filter` (file `filter.hpp`) is not part of the provided
sources; its four small members used here are modelled from the
specification text and marked as such.
-/

namespace hf

/-- The three vehicle axes, mirroring the C enum
`AXIS_ROLL = 0, AXIS_PITCH, AXIS_YAW` in `stabilizer.hpp`. -/
inductive Axis : Type
  | roll
  | pitch
  | yaw
deriving DecidableEq, Repr

/-- A triple of per-axis rational values, standing for the C arrays of
length 3 indexed by `Axis` (arrays of length 2 in the source, such as
`lastGyro[2]`, are modelled with an unused `yaw` slot: the source only
ever indexes them with roll and pitch). -/
structure Axes : Type where
  roll : ℚ
  pitch : ℚ
  yaw : ℚ
deriving DecidableEq, Repr

/-- Array read `a[axis]`. -/
def Axes.get (a : Axes) : Axis → ℚ
  | Axis.roll => a.roll
  | Axis.pitch => a.pitch
  | Axis.yaw => a.yaw

/-- Array write `a[axis] = v`. -/
def Axes.set (a : Axes) : Axis → ℚ → Axes
  | Axis.roll, v => { a with roll := v }
  | Axis.pitch, v => { a with pitch := v }
  | Axis.yaw, v => { a with yaw := v }

@[simp]
theorem Axes.get_set_self (a : Axes) (i : Axis) (v : ℚ) : (a.set i v).get i = v := by
  cases i <;> rfl

theorem Axes.get_set_other (a : Axes) (i j : Axis) (v : ℚ) (h : j ≠ i) :
    (a.set i v).get j = a.get j := by
  cases i <;> cases j <;> simp_all [Axes.set, Axes.get]

/-- Modelled from the spec: `Filter::deg2rad` (file `filter.hpp`, absent
from the sources) — degrees-to-radians conversion, "all angle thresholds
stored as degrees, converted to radians"; the in-source
`Stabilizer::degreesToRadians` uses the same formula `M_PI * deg / 180`. -/
def Filter.deg2rad (pi deg : ℚ) : ℚ :=
  pi * deg / 180

/-- Modelled from the spec: `Filter::constrainAbs` (file `filter.hpp`,
absent from the sources) — clamping of a value to `±max`, per the spec's
"accumulate into errorGyroI[axis], clamped to ±gyroWindupMax". -/
def Filter.constrainAbs (v m : ℚ) : ℚ :=
  if v < -m then -m else if v > m then m else v

/-- Modelled from the spec: `Filter::complementary` (file `filter.hpp`,
absent from the sources) — weighted linear blend `c*a + (1-c)*b`, per the
spec's complementary-filter description (`prop = 1` selects the first,
rate-path argument; `prop = 0` selects the second, angle-path argument). -/
def Filter.complementary (a b c : ℚ) : ℚ :=
  c * a + (1 - c) * b

theorem Filter.abs_constrainAbs_le (v m : ℚ) (hm : 0 ≤ m) :
    |Filter.constrainAbs v m| ≤ m := by
  unfold Filter.constrainAbs
  split_ifs with h1 h2
  · rw [abs_neg, abs_of_nonneg hm]
  · rw [abs_of_nonneg hm]
  · exact abs_le.mpr ⟨by linarith, by linarith⟩

/-- `Filter.constrainAbs` with a bound strictly wider than the value's own
magnitude is the identity. -/
theorem Filter.constrainAbs_slack (y : ℚ) : Filter.constrainAbs y (1/10 + |y|) = y := by
  unfold Filter.constrainAbs
  have h1 := abs_nonneg y
  have h2 := neg_abs_le y
  have h3 := le_abs_self y
  split_ifs with ha hb
  · linarith
  · linarith
  · rfl

/-! ## Stabilizer (`stabilizer.hpp`) -/

/-- `Stabilizer` PID gains, the six constructor parameters. -/
structure StabGains : Type where
  levelP : ℚ
  gyroCyclicP : ℚ
  gyroCyclicI : ℚ
  gyroCyclicD : ℚ
  gyroYawP : ℚ
  gyroYawI : ℚ
deriving DecidableEq, Repr

/-- `const float gyroWindupMax = 16.0f`. -/
def gyroWindupMax : ℚ := 16

/-- `const float bigGyroDegreesPerSecond = 40.0f`. -/
def bigGyroDegreesPerSecond : ℚ := 40

/-- `const float bigYawDemand = 0.1f`. -/
def bigYawDemand : ℚ := 1/10

/-- `const float maxArmingAngleDegrees = 25.0f` (also
`Hackflight::MAX_ARMING_ANGLE_DEGREES`). -/
def maxArmingAngleDegrees : ℚ := 25

/-- Mutable members of `Stabilizer`: derivative history (`lastGyro`,
`delta1`, `delta2`), the per-axis integral `errorGyroI`, and the
radian-converted thresholds computed by `init()`. -/
structure StabState : Type where
  lastGyro : Axes
  delta1 : Axes
  delta2 : Axes
  errorGyroI : Axes
  bigGyroRate : ℚ
  maxArmingAngle : ℚ
deriving DecidableEq, Repr

/-- `Stabilizer::init()`: zero the derivative history, convert the degree
thresholds to radians, and reset the integral. -/
def Stab.init (pi : ℚ) : StabState :=
  { lastGyro := ⟨0, 0, 0⟩
    delta1 := ⟨0, 0, 0⟩
    delta2 := ⟨0, 0, 0⟩
    errorGyroI := ⟨0, 0, 0⟩
    bigGyroRate := Filter.deg2rad pi bigGyroDegreesPerSecond
    maxArmingAngle := Filter.deg2rad pi maxArmingAngleDegrees }

/-- `Stabilizer::resetIntegral()`: zero all three axis integrators. -/
def Stab.resetIntegral (st : StabState) : StabState :=
  { st with errorGyroI := ⟨0, 0, 0⟩ }

/-- `Stabilizer::computeITermGyro`: accumulate the rate error into
`errorGyroI[axis]` clamped to `±gyroWindupMax`, reset it to zero on a big
gyro rate or (on yaw) a big yaw command, and return `errorGyroI * rateI`.
Returns the updated member state paired with the returned value. -/
def computeITermGyro (st : StabState) (rateP rateI rcCommand : ℚ) (gyroRate : Axes)
    (axis : Axis) : StabState × ℚ :=
  let error := rcCommand * rateP - gyroRate.get axis
  let acc0 := Filter.constrainAbs (st.errorGyroI.get axis + error) gyroWindupMax
  let acc := if |gyroRate.get axis| > st.bigGyroRate ∨
      (axis = Axis.yaw ∧ |rcCommand| > bigYawDemand) then 0 else acc0
  ({ st with errorGyroI := st.errorGyroI.set axis acc }, acc * rateI)

/-- `Stabilizer::computePid`: `PTerm -= gyroRate[axis]*rateP;
return PTerm + ITerm - DTerm`. -/
def computePid (rateP PTerm ITerm DTerm : ℚ) (gyroRate : Axes) (axis : Axis) : ℚ :=
  (PTerm - gyroRate.get axis * rateP) + ITerm - DTerm

/-- `Stabilizer::computeCyclicPid`: leveling PID for roll or pitch
(`imuAxis` is only ever `roll` or `pitch` in the source). -/
def computeCyclicPid (g : StabGains) (st : StabState) (rcCommand prop : ℚ)
    (eulerAngles gyroRate : Axes) (imuAxis : Axis) : StabState × ℚ :=
  let r := computeITermGyro st g.gyroCyclicP g.gyroCyclicI rcCommand gyroRate imuAxis
  let st1 := r.1
  let ITermGyro := r.2
  let PTermEuler := (rcCommand - eulerAngles.get imuAxis) * g.levelP
  let PTerm := Filter.complementary rcCommand PTermEuler prop
  let ITerm := ITermGyro * prop
  let delta := gyroRate.get imuAxis - st1.lastGyro.get imuAxis
  let st2 := { st1 with lastGyro := st1.lastGyro.set imuAxis (gyroRate.get imuAxis) }
  let deltaSum := st2.delta1.get imuAxis + st2.delta2.get imuAxis + delta
  let st3 := { st2 with delta2 := st2.delta2.set imuAxis (st2.delta1.get imuAxis) }
  let st4 := { st3 with delta1 := st3.delta1.set imuAxis delta }
  let DTerm := deltaSum * g.gyroCyclicD
  (st4, computePid g.gyroCyclicP PTerm ITerm DTerm gyroRate imuAxis)

/-- The stabilizer's view of the vehicle state
(`state.pose.orientation[k].value` and `.deriv`). -/
structure StabVState : Type where
  orientation : Axes
  rate : Axes
deriving DecidableEq, Repr

/-- `demands_t`: throttle plus the three rotational demands. -/
structure Demands : Type where
  throttle : ℚ
  roll : ℚ
  pitch : ℚ
  yaw : ℚ
deriving DecidableEq, Repr

/-- `Stabilizer::updateDemands`: run the two cyclic PIDs and the yaw PID,
then apply the anti-"yaw jump" clamp.  Returns the updated member state
paired with the corrected demands. -/
def updateDemands (g : StabGains) (st : StabState) (sv : StabVState) (d : Demands) :
    StabState × Demands :=
  let eulerAngles := sv.orientation
  let gyroRate := sv.rate
  let prop := max |d.roll| |d.pitch| / (1/2)
  let r1 := computeCyclicPid g st d.roll prop eulerAngles gyroRate Axis.roll
  let r2 := computeCyclicPid g r1.1 d.pitch prop eulerAngles gyroRate Axis.pitch
  let r3 := computeITermGyro r2.1 g.gyroYawP g.gyroYawI d.yaw gyroRate Axis.yaw
  let yawPid := computePid g.gyroYawP d.yaw r3.2 0 gyroRate Axis.yaw
  let yawOut := Filter.constrainAbs yawPid (1/10 + |yawPid|)
  (r3.1, { d with roll := r1.2, pitch := r2.2, yaw := yawOut })

/-- Fold a sequence of `updateDemands` calls over the stabilizer state,
starting from `Stabilizer::init()`. -/
def runStab (g : StabGains) (pi : ℚ) (l : List (StabVState × Demands)) : StabState :=
  l.foldl (fun st p => (updateDemands g st p.1 p.2).1) (Stab.init pi)

/-! ## Hackflight arming / safety state machine (`hackflight.hpp`) -/

/-- The fields of `state_t` used by `Hackflight::checkReceiver`
(`datatypes.hpp` itself is not among the sources): the armed and failsafe
flags and the Euler-angle vector `rotation[3]`. -/
structure state_t : Type where
  armed : Bool
  failsafe : Bool
  rotation : Axes
deriving DecidableEq, Repr

/-- The `Hackflight` members touched by `checkReceiver`: the `_safeToArm`
latch, the headless-mode reference `_yawInitial`, and `_state`. -/
structure HackflightState : Type where
  safeToArm : Bool
  yawInitial : ℚ
  state : state_t
deriving DecidableEq, Repr

/-- The receiver's answers for one `checkReceiver` call: `lostSignal()`,
the Boolean result of `getDemands(...)` (new data available?),
`getAux1State()` and `throttleIsDown()`. -/
structure RxInput : Type where
  lostSignal : Bool
  hasData : Bool
  aux1 : Bool
  throttleDown : Bool
deriving DecidableEq, Repr

/-- Externally observable calls made during one control tick: actuator
`cut()`, board `showArmedStatus(b)`, the PID-controllers timer task
(stabilizer feeding the actuator), the mandatory gyrometer / quaternion
reads, an optional-sensor read, and the serial task. -/
inductive Event : Type
  | cut
  | showArmed (b : Bool)
  | pidUpdate
  | gyroRead
  | quatRead
  | optRead
  | serialUpdate
deriving DecidableEq, Repr

/-- `Hackflight::MAX_ARMING_ANGLE_DEGREES = 25.0f`. -/
def MAX_ARMING_ANGLE_DEGREES : ℚ := 25

/-- `Hackflight::safeAngle(axis)`:
`fabs(_state.rotation[axis]) < Filter::deg2rad(MAX_ARMING_ANGLE_DEGREES)`. -/
def safeAngle (pi : ℚ) (h : HackflightState) (axis : Axis) : Prop :=
  |h.state.rotation.get axis| < Filter.deg2rad pi MAX_ARMING_ANGLE_DEGREES

instance (pi : ℚ) (h : HackflightState) (axis : Axis) : Decidable (safeAngle pi h axis) := by
  unfold safeAngle
  infer_instance

/-- `Hackflight::checkReceiver()`, returning the updated members together
with the list of external calls (`cut`, `showArmedStatus`) it makes, in
order.  The yaw-offset argument of `getDemands` only feeds the receiver's
internal demand computation and is not modelled. -/
def checkReceiver (pi : ℚ) (rx : RxInput) (h : HackflightState) :
    HackflightState × List Event :=
  if rx.lostSignal = true ∧ h.state.armed = true then
    ({ h with state := { h.state with armed := false, failsafe := true } },
      [Event.cut, Event.showArmed false])
  else if rx.hasData = false then
    (h, [])
  else
    let h1 := if h.state.armed = true ∧ rx.aux1 = false then
        { h with state := { h.state with armed := false } } else h
    let h2 := if h1.safeToArm = false then { h1 with safeToArm := !rx.aux1 } else h1
    let h3 := if h2.safeToArm = true ∧ h2.state.armed = false ∧ rx.throttleDown = true ∧
        rx.aux1 = true ∧ h2.state.failsafe = false ∧ safeAngle pi h2 Axis.roll ∧
        safeAngle pi h2 Axis.pitch then
        { h2 with yawInitial := h2.state.rotation.yaw,
                  state := { h2.state with armed := true } }
      else h2
    let evs := if h3.state.armed = true ∧ rx.throttleDown = true then [Event.cut] else []
    (h3, evs ++ [Event.showArmed h3.state.armed])

/-- The state produced by `Hackflight::init` via `general_init`: `_state`
zeroed (`memset`), `failsafe = false`, `armed = false` (the default of the
`armed` parameter), `_safeToArm = false`, `_yawInitial = 0`. -/
def initHackflight : HackflightState :=
  { safeToArm := false, yawInitial := 0
    state := { armed := false, failsafe := false, rotation := ⟨0, 0, 0⟩ } }

/-- Fold a sequence of `checkReceiver` calls over the controller state. -/
def runRx (pi : ℚ) (h : HackflightState) (l : List RxInput) : HackflightState :=
  l.foldl (fun t rx => (checkReceiver pi rx t).1) h

/-- The inputs consumed during one `Hackflight::update()` tick (full
variant): the receiver's answers, the `ready(time)` results of the
mandatory gyrometer and quaternion plus the quaternion's new Euler angles,
and the `ready` results of the registered optional sensors. -/
structure TickInput : Type where
  rx : RxInput
  gyroReady : Bool
  quatReady : Bool
  quatRotation : Axes
deriving DecidableEq, Repr

/-- `Hackflight::update()` (full variant): `checkReceiver()`, then
`_pidTask.update()`, then `updateFull()` = gyrometer check, quaternion
check, optional sensors, serial task.  The gyrometer writes angular-rate
fields not used by the arming logic and so not carried in `state_t` here;
the quaternion writes the Euler angles.  The PID task and serial task are
modelled as opaque stage events (their classes are not among the
sources). -/
def tick (pi : ℚ) (ti : TickInput) (optReady : List Bool) (h : HackflightState) :
    HackflightState × List Event :=
  let r := checkReceiver pi ti.rx h
  let h1 := r.1
  let h2 := if ti.quatReady = true then
      { h1 with state := { h1.state with rotation := ti.quatRotation } } else h1
  (h2, r.2 ++ [Event.pidUpdate]
    ++ (if ti.gyroReady = true then [Event.gyroRead] else [])
    ++ (if ti.quatReady = true then [Event.quatRead] else [])
    ++ optReady.filterMap (fun b => if b = true then some Event.optRead else none)
    ++ [Event.serialUpdate])

/-- Pipeline stage of an event within one tick, in source order:
receiver/arming check (0), PID-controllers task (1), gyrometer read (2),
quaternion read (3), optional sensors (4), serial task (5). -/
def stageOf : Event → Nat
  | Event.cut => 0
  | Event.showArmed _ => 0
  | Event.pidUpdate => 1
  | Event.gyroRead => 2
  | Event.quatRead => 3
  | Event.optRead => 4
  | Event.serialUpdate => 5

/-! ## Concrete instances used by counterexamples and witnesses -/

/-- A concrete rational stand-in for `M_PI`. -/
def pi0 : ℚ := 355/113

/-- A concrete all-ones gain set. -/
def g1 : StabGains := ⟨1, 1, 1, 1, 1, 1⟩

/-! ## Structural lemmas about the stabilizer -/

theorem computeITermGyro_abs_le (st : StabState) (rP rI rc : ℚ) (gr : Axes) (ax : Axis) :
    |(computeITermGyro st rP rI rc gr ax).1.errorGyroI.get ax| ≤ gyroWindupMax := by
  simp only [computeITermGyro, Axes.get_set_self]
  split_ifs with h
  · norm_num [gyroWindupMax]
  · exact Filter.abs_constrainAbs_le _ _ (by norm_num [gyroWindupMax])

theorem computeITermGyro_get_other (st : StabState) (rP rI rc : ℚ) (gr : Axes)
    (ax ax2 : Axis) (h : ax2 ≠ ax) :
    (computeITermGyro st rP rI rc gr ax).1.errorGyroI.get ax2 = st.errorGyroI.get ax2 := by
  simp only [computeITermGyro]
  exact Axes.get_set_other _ _ _ _ h

theorem computeITermGyro_reset (st : StabState) (rP rI rc : ℚ) (gr : Axes) (ax : Axis)
    (h : |gr.get ax| > st.bigGyroRate ∨ (ax = Axis.yaw ∧ |rc| > bigYawDemand)) :
    (computeITermGyro st rP rI rc gr ax).1.errorGyroI.get ax = 0 := by
  simp only [computeITermGyro, Axes.get_set_self]
  rw [if_pos h]

theorem computeITermGyro_snd_congr (st1 st2 : StabState) (rP rI rc : ℚ) (gr : Axes)
    (ax : Axis) (hE : st1.errorGyroI.get ax = st2.errorGyroI.get ax)
    (hB : st1.bigGyroRate = st2.bigGyroRate) :
    (computeITermGyro st1 rP rI rc gr ax).2 = (computeITermGyro st2 rP rI rc gr ax).2 := by
  simp only [computeITermGyro]
  rw [hE, hB]

theorem computeCyclicPid_errorGyroI (g : StabGains) (st : StabState) (rc prop : ℚ)
    (e gr : Axes) (ax : Axis) :
    (computeCyclicPid g st rc prop e gr ax).1.errorGyroI =
      (computeITermGyro st g.gyroCyclicP g.gyroCyclicI rc gr ax).1.errorGyroI := rfl

theorem computeCyclicPid_errorGyroI_get_other (g : StabGains) (st : StabState)
    (rc prop : ℚ) (e gr : Axes) (ax ax2 : Axis) (h : ax2 ≠ ax) :
    (computeCyclicPid g st rc prop e gr ax).1.errorGyroI.get ax2 =
      st.errorGyroI.get ax2 := by
  rw [computeCyclicPid_errorGyroI]
  exact computeITermGyro_get_other _ _ _ _ _ _ _ h

theorem computeCyclicPid_bigGyroRate (g : StabGains) (st : StabState) (rc prop : ℚ)
    (e gr : Axes) (ax : Axis) :
    (computeCyclicPid g st rc prop e gr ax).1.bigGyroRate = st.bigGyroRate := rfl

/-- The stabilizer state returned by `updateDemands`, written as the
chain of the three integral-term updates (definitional unfolding). -/
theorem updateDemands_fst (g : StabGains) (st : StabState) (sv : StabVState)
    (d : Demands) :
    (updateDemands g st sv d).1 =
      (computeITermGyro
        (computeCyclicPid g
          (computeCyclicPid g st d.roll (max |d.roll| |d.pitch| / (1/2))
            sv.orientation sv.rate Axis.roll).1
          d.pitch (max |d.roll| |d.pitch| / (1/2)) sv.orientation sv.rate Axis.pitch).1
        g.gyroYawP g.gyroYawI d.yaw sv.rate Axis.yaw).1 := rfl

/-- Each `updateDemands` call rewrites every axis integrator with either a
clamped value or zero, so the windup bound holds after any single call,
from any prior stabilizer state. -/
theorem updateDemands_errorGyroI_abs_le (g : StabGains) (st : StabState)
    (sv : StabVState) (d : Demands) (axis : Axis) :
    |(updateDemands g st sv d).1.errorGyroI.get axis| ≤ gyroWindupMax := by
  rw [updateDemands_fst]
  cases axis with
  | yaw => exact computeITermGyro_abs_le _ _ _ _ _ _
  | pitch =>
      rw [computeITermGyro_get_other _ _ _ _ _ _ _ (by simp),
        computeCyclicPid_errorGyroI]
      exact computeITermGyro_abs_le _ _ _ _ _ _
  | roll =>
      rw [computeITermGyro_get_other _ _ _ _ _ _ _ (by simp),
        computeCyclicPid_errorGyroI_get_other _ _ _ _ _ _ _ _ (by simp),
        computeCyclicPid_errorGyroI]
      exact computeITermGyro_abs_le _ _ _ _ _ _

/-- C3: for every axis and every sequence of `updateDemands` calls with
arbitrary demands and vehicle states, starting from `init`, the integrator
invariant `|errorGyroI[axis]| <= gyroWindupMax` (= 16) holds after every
call (every prefix of the sequence, including the empty one). -/
theorem errorGyroI_always_bounded (g : StabGains) (pi : ℚ)
    (l : List (StabVState × Demands)) (axis : Axis) :
    |(runStab g pi l).errorGyroI.get axis| ≤ gyroWindupMax := by
  rcases List.eq_nil_or_concat l with rfl | ⟨l2, a, rfl⟩
  · cases axis <;> norm_num [runStab, Stab.init, Axes.get, gyroWindupMax]
  · rw [runStab, List.concat_eq_append, List.foldl_append]
    exact updateDemands_errorGyroI_abs_le _ _ _ _ _

/-- C7: the integrator of an axis is exactly zeroed by the `updateDemands`
call in which that axis's rate magnitude exceeds `bigGyroRate`
(40 degrees/second in radians, as set by `init`), or in which the axis is
yaw and the yaw-demand magnitude exceeds `bigYawDemand` (0.1), regardless
of the previously accumulated value. -/
theorem integral_reset_on_trigger (g : StabGains) (pi : ℚ) (st : StabState)
    (sv : StabVState) (d : Demands) (axis : Axis)
    (hbig : st.bigGyroRate = Filter.deg2rad pi bigGyroDegreesPerSecond)
    (h : |sv.rate.get axis| > Filter.deg2rad pi bigGyroDegreesPerSecond ∨
      (axis = Axis.yaw ∧ |d.yaw| > bigYawDemand)) :
    (updateDemands g st sv d).1.errorGyroI.get axis = 0 := by
  rw [updateDemands_fst]
  cases axis with
  | yaw =>
      apply computeITermGyro_reset
      have hB : (computeCyclicPid g
          (computeCyclicPid g st d.roll (max |d.roll| |d.pitch| / (1/2))
            sv.orientation sv.rate Axis.roll).1
          d.pitch (max |d.roll| |d.pitch| / (1/2)) sv.orientation sv.rate
          Axis.pitch).1.bigGyroRate = st.bigGyroRate := rfl
      rw [hB, hbig]
      exact h
  | pitch =>
      rw [computeITermGyro_get_other _ _ _ _ _ _ _ (by simp),
        computeCyclicPid_errorGyroI]
      apply computeITermGyro_reset
      have hB : (computeCyclicPid g st d.roll (max |d.roll| |d.pitch| / (1/2))
          sv.orientation sv.rate Axis.roll).1.bigGyroRate = st.bigGyroRate := rfl
      rw [hB, hbig]
      rcases h with h | ⟨hax, _⟩
      · exact Or.inl h
      · exact absurd hax (by simp)
  | roll =>
      rw [computeITermGyro_get_other _ _ _ _ _ _ _ (by simp),
        computeCyclicPid_errorGyroI_get_other _ _ _ _ _ _ _ _ (by simp),
        computeCyclicPid_errorGyroI]
      apply computeITermGyro_reset
      rw [hbig]
      rcases h with h | ⟨hax, _⟩
      · exact Or.inl h
      · exact absurd hax (by simp)

/-- The concrete trigger magnitude used by the C7 witness: a yaw rate of
10 rad/s exceeds the 40 deg/s threshold for `pi = 355/113`. -/
theorem ten_exceeds_bigGyroRate :
    |(10 : ℚ)| > Filter.deg2rad pi0 bigGyroDegreesPerSecond := by
  norm_num [Filter.deg2rad, pi0, bigGyroDegreesPerSecond]

/-- C7 witness: concrete instantiation of `integral_reset_on_trigger`. -/
theorem integral_reset_on_trigger_witness :
    (Stab.init pi0).bigGyroRate = Filter.deg2rad pi0 bigGyroDegreesPerSecond ∧
    (|Axes.get ⟨0, 0, 10⟩ Axis.yaw| > Filter.deg2rad pi0 bigGyroDegreesPerSecond ∨
      (Axis.yaw = Axis.yaw ∧ |Demands.yaw ⟨0, 0, 0, 0⟩| > bigYawDemand)) ∧
    (updateDemands g1 (Stab.init pi0) ⟨⟨0, 0, 0⟩, ⟨0, 0, 10⟩⟩
      ⟨0, 0, 0, 0⟩).1.errorGyroI.get Axis.yaw = 0 :=
  ⟨rfl, Or.inl ten_exceeds_bigGyroRate,
    integral_reset_on_trigger g1 pi0 (Stab.init pi0) ⟨⟨0, 0, 0⟩, ⟨0, 0, 10⟩⟩
      ⟨0, 0, 0, 0⟩ Axis.yaw rfl (Or.inl ten_exceeds_bigGyroRate)⟩

/-! ## C4: the anti-"yaw jump" clamp -/

/-- The yaw demand value at the moment the anti-"yaw jump" clamp is
applied: `demands.yaw` has already been overwritten by the yaw PID
correction (line `demands.yaw = computePid(...)` precedes the clamp), so
the clamp bound `0.1 + fabs(demands.yaw)` is computed from the
already-corrected value.  (The yaw integral-term call depends on the prior
state only through `errorGyroI[yaw]` and `bigGyroRate`, which the two
cyclic calls leave untouched, so this value can be computed from the
pre-call state directly.) -/
def yawPreClamp (g : StabGains) (st : StabState) (sv : StabVState) (d : Demands) : ℚ :=
  computePid g.gyroYawP d.yaw
    (computeITermGyro st g.gyroYawP g.gyroYawI d.yaw sv.rate Axis.yaw).2 0
    sv.rate Axis.yaw

theorem updateDemands_yaw_eq (g : StabGains) (st : StabState) (sv : StabVState)
    (d : Demands) :
    (updateDemands g st sv d).2.yaw =
      Filter.constrainAbs (yawPreClamp g st sv d) (1/10 + |yawPreClamp g st sv d|) := by
  have hE : (computeCyclicPid g
      (computeCyclicPid g st d.roll (max |d.roll| |d.pitch| / (1/2))
        sv.orientation sv.rate Axis.roll).1
      d.pitch (max |d.roll| |d.pitch| / (1/2)) sv.orientation sv.rate
      Axis.pitch).1.errorGyroI.get Axis.yaw = st.errorGyroI.get Axis.yaw := by
    rw [computeCyclicPid_errorGyroI_get_other _ _ _ _ _ _ _ _ (by simp),
      computeCyclicPid_errorGyroI_get_other _ _ _ _ _ _ _ _ (by simp)]
  simp only [updateDemands, yawPreClamp]
  rw [computeITermGyro_snd_congr _ st _ _ _ _ _ hE rfl]

/-- C4 (amended): after `updateDemands`, the corrected yaw demand equals
the yaw PID output unchanged — the clamp bound `0.1 + |yaw|` is computed
from the already-corrected yaw value, so the clamp never binds — and is
therefore bounded by `0.1` plus the magnitude of that already-corrected
(pre-clamp) value, for every input demand triple and vehicle state. -/
theorem yaw_clamp_bound (g : StabGains) (st : StabState) (sv : StabVState)
    (d : Demands) :
    (updateDemands g st sv d).2.yaw = yawPreClamp g st sv d ∧
      |(updateDemands g st sv d).2.yaw| ≤ 1/10 + |yawPreClamp g st sv d| := by
  have h := updateDemands_yaw_eq g st sv d
  rw [Filter.constrainAbs_slack] at h
  refine ⟨h, ?_⟩
  rw [h]
  linarith [abs_nonneg (yawPreClamp g st sv d)]

/-- C4 counterexample: with all-ones gains, a freshly initialized
stabilizer, zero raw yaw demand and a yaw rate of 10 rad/s, the corrected
yaw demand is `-10`, violating `|correctedYaw| <= 0.1 + |rawYawDemand|`
(= 0.1 here): the clamp bound is computed from the corrected value, not
from the raw yaw demand passed into the call. -/
theorem yaw_claim_bound_cex :
    (updateDemands g1 (Stab.init pi0) ⟨⟨0, 0, 0⟩, ⟨0, 0, 10⟩⟩ ⟨0, 0, 0, 0⟩).2.yaw = -10 ∧
    ¬ (|(updateDemands g1 (Stab.init pi0) ⟨⟨0, 0, 0⟩, ⟨0, 0, 10⟩⟩
        ⟨0, 0, 0, 0⟩).2.yaw| ≤ 1/10 + |Demands.yaw ⟨0, 0, 0, 0⟩|) := by
  constructor <;>
    norm_num [updateDemands, computeCyclicPid, computeITermGyro, computePid, Stab.init,
      Filter.constrainAbs, Filter.complementary, Filter.deg2rad, Axes.get, Axes.set,
      gyroWindupMax, bigYawDemand, bigGyroDegreesPerSecond, pi0, g1]

/-! ## C9: reset followed by a zero-input update -/

/-- C9 (amended): from a stabilizer whose derivative history is zero (as
after `init()`), `resetIntegral()` followed by one `updateDemands` call
with zero angular rates, zero orientation angles and zero demands yields a
zero correction on all three axes.  (Zero orientation and zero derivative
history are required in addition to the claim's zero rates and demands:
the angle-leveling P term and the D term otherwise contribute.) -/
theorem reset_zero_input_zero_correction (g : StabGains) (pi t : ℚ) :
    (updateDemands g (Stab.resetIntegral (Stab.init pi)) ⟨⟨0, 0, 0⟩, ⟨0, 0, 0⟩⟩
        ⟨t, 0, 0, 0⟩).2.roll = 0 ∧
    (updateDemands g (Stab.resetIntegral (Stab.init pi)) ⟨⟨0, 0, 0⟩, ⟨0, 0, 0⟩⟩
        ⟨t, 0, 0, 0⟩).2.pitch = 0 ∧
    (updateDemands g (Stab.resetIntegral (Stab.init pi)) ⟨⟨0, 0, 0⟩, ⟨0, 0, 0⟩⟩
        ⟨t, 0, 0, 0⟩).2.yaw = 0 := by
  norm_num [updateDemands, computeCyclicPid, computeITermGyro, computePid,
    Stab.resetIntegral, Stab.init, Filter.constrainAbs, Filter.complementary,
    Axes.get, Axes.set, gyroWindupMax, bigYawDemand]

/-- C9 counterexample: with a nonzero roll angle in the vehicle state (and
nonzero `levelP`), `resetIntegral()` followed by one `updateDemands` call
with all angular rates zero and all demands zero yields a roll correction
of `-1`, not zero: the claim omits the orientation angles from its
hypotheses, and the angle-leveling term acts on them. -/
theorem reset_zero_input_cex :
    (updateDemands g1 (Stab.resetIntegral (Stab.init pi0)) ⟨⟨1, 0, 0⟩, ⟨0, 0, 0⟩⟩
      ⟨0, 0, 0, 0⟩).2.roll = -1 ∧
    (updateDemands g1 (Stab.resetIntegral (Stab.init pi0)) ⟨⟨1, 0, 0⟩, ⟨0, 0, 0⟩⟩
      ⟨0, 0, 0, 0⟩).2.roll ≠ 0 := by
  constructor <;>
    norm_num [updateDemands, computeCyclicPid, computeITermGyro, computePid,
      Stab.resetIntegral, Stab.init, Filter.constrainAbs, Filter.complementary,
      Filter.deg2rad, Axes.get, Axes.set, gyroWindupMax, bigYawDemand,
      bigGyroDegreesPerSecond, pi0, g1]

/-! ## C2: signal loss while armed -/

/-- C2: whenever `checkReceiver` runs with the receiver reporting
`lostSignal()` and the state armed, the call cuts the actuator, clears
`armed`, sets `failsafe`, shows the disarmed status, and changes nothing
else — in particular it returns before any other transition, so an arm
gesture presented in the same cycle cannot take effect. -/
theorem lost_signal_failsafe (pi : ℚ) (rx : RxInput) (h : HackflightState)
    (hls : rx.lostSignal = true) (ha : h.state.armed = true) :
    (checkReceiver pi rx h).1 =
      { h with state := { h.state with armed := false, failsafe := true } } ∧
    (checkReceiver pi rx h).2 = [Event.cut, Event.showArmed false] := by
  simp [checkReceiver, hls, ha]

/-- Receiver input for the C2 witness: signal lost, arm gesture fully
presented in the same cycle. -/
def rxLost : RxInput := ⟨true, true, true, true⟩

/-- An armed, latched controller state. -/
def hArmed : HackflightState := ⟨true, 0, ⟨true, false, ⟨0, 0, 0⟩⟩⟩

/-- C2 witness: concrete instantiation of `lost_signal_failsafe`. -/
theorem lost_signal_failsafe_witness :
    rxLost.lostSignal = true ∧ hArmed.state.armed = true ∧
    (checkReceiver pi0 rxLost hArmed).1 =
      { hArmed with state := { hArmed.state with armed := false, failsafe := true } } ∧
    (checkReceiver pi0 rxLost hArmed).2 = [Event.cut, Event.showArmed false] :=
  ⟨rfl, rfl, (lost_signal_failsafe pi0 rxLost hArmed rfl rfl).1,
    (lost_signal_failsafe pi0 rxLost hArmed rfl rfl).2⟩

/-! ## C1: the arm-gesture transition -/

/-- C1 (amended): provided the receiver reports new data (`getDemands`
returned true), `checkReceiver` performs the DISARMED-to-ARMED transition
if and only if all of: the safe-to-arm latch is set, the state is not
already armed, throttle is down, the aux1 arm switch is asserted, the
failsafe flag is false, and both roll and pitch satisfy
`|angle| < 25 degrees` in radians; on the transition it latches the
current yaw angle into `yawInitial`.  (When `getDemands` reports no new
data the call returns early and no transition occurs even if all the
gesture conditions hold.) -/
theorem arm_transition_iff (pi : ℚ) (rx : RxInput) (h : HackflightState)
    (hd : rx.hasData = true) :
    ((h.state.armed = false ∧ (checkReceiver pi rx h).1.state.armed = true) ↔
      (h.safeToArm = true ∧ h.state.armed = false ∧ rx.throttleDown = true ∧
        rx.aux1 = true ∧ h.state.failsafe = false ∧ safeAngle pi h Axis.roll ∧
        safeAngle pi h Axis.pitch)) ∧
    (h.state.armed = false → (checkReceiver pi rx h).1.state.armed = true →
      (checkReceiver pi rx h).1.yawInitial = h.state.rotation.yaw) := by
  obtain ⟨ls, hda, aux, thr⟩ := rx
  obtain ⟨stm, yi, sa, sf, rot⟩ := h
  subst hd
  cases ls <;> cases aux <;> cases thr <;> cases stm <;> cases sa <;> cases sf <;>
    simp [checkReceiver, safeAngle] <;> split_ifs <;> simp_all

/-- Receiver input for witnesses: new data, arm switch asserted, throttle
down, signal present — the complete arm gesture. -/
def rxArm : RxInput := ⟨false, true, true, true⟩

/-- A disarmed, latched, level state in which every arm-gesture condition
of C1 holds. -/
def hReady : HackflightState := ⟨true, 0, ⟨false, false, ⟨0, 0, 0⟩⟩⟩

/-- Receiver input reporting no new data (`getDemands` returned false) but
arm switch asserted and throttle down. -/
def rxNoData : RxInput := ⟨false, false, true, true⟩

/-- C1 counterexample: in `hReady` every condition of the claimed
if-and-only-if holds (latch set, disarmed, throttle down, aux1 asserted,
no failsafe, level attitude), yet with `getDemands` reporting no new data
the call returns early and does not arm — the claimed equivalence is
false without the new-data condition. -/
theorem arm_transition_iff_cex :
    (hReady.safeToArm = true ∧ hReady.state.armed = false ∧
      rxNoData.throttleDown = true ∧ rxNoData.aux1 = true ∧
      hReady.state.failsafe = false ∧ safeAngle pi0 hReady Axis.roll ∧
      safeAngle pi0 hReady Axis.pitch) ∧
    ¬ (hReady.state.armed = false ∧
      (checkReceiver pi0 rxNoData hReady).1.state.armed = true) := by
  refine ⟨⟨rfl, rfl, rfl, rfl, rfl, ?_, ?_⟩, ?_⟩
  · norm_num [safeAngle, hReady, Axes.get, Filter.deg2rad, pi0, MAX_ARMING_ANGLE_DEGREES]
  · norm_num [safeAngle, hReady, Axes.get, Filter.deg2rad, pi0, MAX_ARMING_ANGLE_DEGREES]
  · simp [checkReceiver, rxNoData, hReady]

/-- C1 witness: concrete instantiation of `arm_transition_iff`. -/
theorem arm_transition_iff_witness :
    rxArm.hasData = true ∧
    (((hReady.state.armed = false ∧
        (checkReceiver pi0 rxArm hReady).1.state.armed = true) ↔
      (hReady.safeToArm = true ∧ hReady.state.armed = false ∧
        rxArm.throttleDown = true ∧ rxArm.aux1 = true ∧
        hReady.state.failsafe = false ∧ safeAngle pi0 hReady Axis.roll ∧
        safeAngle pi0 hReady Axis.pitch)) ∧
    (hReady.state.armed = false →
      (checkReceiver pi0 rxArm hReady).1.state.armed = true →
      (checkReceiver pi0 rxArm hReady).1.yawInitial = hReady.state.rotation.yaw)) :=
  ⟨rfl, arm_transition_iff pi0 rxArm hReady rfl⟩

/-! ## C6: the safe-to-arm latch -/

/-- A `checkReceiver` call that never observes the arm switch de-asserted
(no new data, or switch asserted) preserves "disarmed with latch clear". -/
theorem checkReceiver_no_observation (pi : ℚ) (rx : RxInput) (h : HackflightState)
    (hna : rx.hasData = true → rx.aux1 = true) (ha : h.state.armed = false)
    (hs : h.safeToArm = false) :
    (checkReceiver pi rx h).1.state.armed = false ∧
      (checkReceiver pi rx h).1.safeToArm = false := by
  obtain ⟨ls, hda, aux, thr⟩ := rx
  obtain ⟨stm, yi, sa, sf, rot⟩ := h
  simp only at ha hs hna
  subst ha hs
  cases ls <;> cases hda <;> cases aux <;> cases thr <;> cases sf <;>
    simp_all [checkReceiver]

/-- C6: starting from initialization, no sequence of `checkReceiver` calls
in which the arm switch is never observed de-asserted (every call with new
data sees aux1 asserted) can arm, and the latch stays clear; the latch is
set by any call that observes the switch de-asserted from a disarmed,
unlatched state; and once set, the latch stays set through any call. -/
theorem safe_to_arm_latch (pi : ℚ) :
    (∀ l : List RxInput, (∀ rx ∈ l, rx.hasData = true → rx.aux1 = true) →
      (runRx pi initHackflight l).state.armed = false ∧
        (runRx pi initHackflight l).safeToArm = false) ∧
    (∀ (rx : RxInput) (h : HackflightState), h.safeToArm = true →
      (checkReceiver pi rx h).1.safeToArm = true) ∧
    (∀ (rx : RxInput) (h : HackflightState), h.state.armed = false →
      h.safeToArm = false → rx.hasData = true → rx.aux1 = false →
      (checkReceiver pi rx h).1.safeToArm = true) := by
  refine ⟨?_, ?_, ?_⟩
  · have inv : ∀ (l : List RxInput) (h : HackflightState),
        (∀ rx ∈ l, rx.hasData = true → rx.aux1 = true) →
        h.state.armed = false → h.safeToArm = false →
        (runRx pi h l).state.armed = false ∧ (runRx pi h l).safeToArm = false := by
      intro l
      induction l with
      | nil => exact fun h _ ha hs => ⟨ha, hs⟩
      | cons rx l ih =>
          intro h hall ha hs
          have hstep := checkReceiver_no_observation pi rx h
            (hall rx (List.mem_cons_self _ _)) ha hs
          have : runRx pi h (rx :: l) = runRx pi (checkReceiver pi rx h).1 l := rfl
          rw [this]
          exact ih _ (fun r hr => hall r (List.mem_cons_of_mem _ hr)) hstep.1 hstep.2
    exact fun l hl => inv l initHackflight hl rfl rfl
  · intro rx h hs
    obtain ⟨ls, hda, aux, thr⟩ := rx
    obtain ⟨stm, yi, sa, sf, rot⟩ := h
    simp only at hs
    subst hs
    cases ls <;> cases hda <;> cases aux <;> cases thr <;> cases sa <;> cases sf <;>
      simp_all [checkReceiver] <;> split_ifs <;> simp_all
  · intro rx h ha hs hd hx
    obtain ⟨ls, hda, aux, thr⟩ := rx
    obtain ⟨stm, yi, sa, sf, rot⟩ := h
    simp only at ha hs hd hx
    subst ha hs hd hx
    cases ls <;> cases thr <;> cases sf <;>
      simp_all [checkReceiver]

/-- A list of calls for the C6 witness: the arm gesture is presented with
the switch asserted throughout (never observed de-asserted). -/
def lAluxUp : List RxInput := [⟨false, true, true, true⟩, ⟨false, true, true, true⟩]

/-- C6 witness: concrete instantiation of `safe_to_arm_latch`: two
arm-gesture calls from startup leave the system disarmed and unlatched;
the latch persists from `hReady`; one de-assertion observation from
startup sets the latch. -/
theorem safe_to_arm_latch_witness :
    ((∀ rx ∈ lAluxUp, rx.hasData = true → rx.aux1 = true) ∧
      (runRx pi0 initHackflight lAluxUp).state.armed = false ∧
      (runRx pi0 initHackflight lAluxUp).safeToArm = false) ∧
    (hReady.safeToArm = true ∧
      (checkReceiver pi0 rxArm hReady).1.safeToArm = true) ∧
    (initHackflight.state.armed = false ∧ initHackflight.safeToArm = false ∧
      RxInput.hasData ⟨false, true, false, false⟩ = true ∧
      RxInput.aux1 ⟨false, true, false, false⟩ = false ∧
      (checkReceiver pi0 ⟨false, true, false, false⟩ initHackflight).1.safeToArm = true) :=
  ⟨⟨by decide, (safe_to_arm_latch pi0).1 lAluxUp (by decide)⟩,
    ⟨rfl, (safe_to_arm_latch pi0).2.1 rxArm hReady rfl⟩,
    ⟨rfl, rfl, rfl, rfl,
      (safe_to_arm_latch pi0).2.2 ⟨false, true, false, false⟩ initHackflight rfl rfl rfl rfl⟩⟩

/-! ## C10: failsafe is permanent -/

/-- One `checkReceiver` call never clears `failsafe`, and from a
failsafe-and-disarmed state it never arms. -/
theorem checkReceiver_failsafe_step (pi : ℚ) (rx : RxInput) (h : HackflightState)
    (hf : h.state.failsafe = true) :
    (checkReceiver pi rx h).1.state.failsafe = true ∧
      (h.state.armed = false → (checkReceiver pi rx h).1.state.armed = false) := by
  obtain ⟨ls, hda, aux, thr⟩ := rx
  obtain ⟨stm, yi, sa, sf, rot⟩ := h
  simp only at hf
  subst hf
  cases ls <;> cases hda <;> cases aux <;> cases thr <;> cases sa <;> cases stm <;>
    simp_all [checkReceiver]

/-- C10: once `failsafe` is true it is never cleared by any sequence of
`checkReceiver` calls (the only assignment `failsafe = false` is in
initialization), and if the state is also disarmed, no sequence of calls
can ever arm it again: failsafe permanently disables arming. -/
theorem failsafe_permanent (pi : ℚ) (l : List RxInput) (h : HackflightState)
    (hf : h.state.failsafe = true) :
    (runRx pi h l).state.failsafe = true ∧
      (h.state.armed = false → (runRx pi h l).state.armed = false) := by
  induction l generalizing h with
  | nil => exact ⟨hf, fun ha => ha⟩
  | cons rx l ih =>
      have hstep := checkReceiver_failsafe_step pi rx h hf
      have hrw : runRx pi h (rx :: l) = runRx pi (checkReceiver pi rx h).1 l := rfl
      rw [hrw]
      refine ⟨(ih _ hstep.1).1, fun ha => (ih _ hstep.1).2 (hstep.2 ha)⟩

/-- A failsafe, disarmed state (as produced by a signal-loss event). -/
def hFailsafe : HackflightState := ⟨true, 0, ⟨false, true, ⟨0, 0, 0⟩⟩⟩

/-- C10 witness: concrete instantiation of `failsafe_permanent`: from a
failsafe state, two full arm gestures leave the system in failsafe and
disarmed. -/
theorem failsafe_permanent_witness :
    hFailsafe.state.failsafe = true ∧
    (runRx pi0 hFailsafe [rxArm, rxArm]).state.failsafe = true ∧
    (runRx pi0 hFailsafe [rxArm, rxArm]).state.armed = false :=
  ⟨rfl, (failsafe_permanent pi0 [rxArm, rxArm] hFailsafe rfl).1,
    (failsafe_permanent pi0 [rxArm, rxArm] hFailsafe rfl).2 rfl⟩

/-! ## C8: cut on throttle-down while armed -/

/-- Within `checkReceiver`, if new receiver data arrived, throttle is
down, and the state is armed once the call's transitions have been
applied, the actuator `cut()` is among this call's external calls. -/
theorem checkReceiver_cut_of_armed (pi : ℚ) (rx : RxInput) (h : HackflightState)
    (hd : rx.hasData = true) (ht : rx.throttleDown = true)
    (ha : (checkReceiver pi rx h).1.state.armed = true) :
    Event.cut ∈ (checkReceiver pi rx h).2 := by
  obtain ⟨ls, hda, aux, thr⟩ := rx
  obtain ⟨stm, yi, sa, sf, rot⟩ := h
  simp only at hd ht
  subst hd ht
  cases ls <;> cases sa <;> cases sf <;> cases stm <;>
    simp_all [checkReceiver]

/-- The state after a tick is armed exactly when the state after its
`checkReceiver` stage is armed: the sensor stages do not touch the armed
flag. -/
theorem tick_armed (pi : ℚ) (ti : TickInput) (opt : List Bool) (h : HackflightState) :
    (tick pi ti opt h).1.state.armed = (checkReceiver pi ti.rx h).1.state.armed := by
  simp only [tick]
  split_ifs <;> rfl

/-- C8 (amended): on every `Hackflight::update` tick in which new receiver
data is available (`getDemands` returned true), the receiver reports
throttle down, and the state is armed after this tick's arm/disarm
transitions, the actuator's `cut()` is invoked — independently of the
roll, pitch and yaw demand values, which do not enter the arming logic at
all.  (When `getDemands` reports no new data, the throttle-down cut is
skipped for that tick even if the state is armed.) -/
theorem cut_on_throttle_down (pi : ℚ) (ti : TickInput) (opt : List Bool)
    (h : HackflightState) (hd : ti.rx.hasData = true) (ht : ti.rx.throttleDown = true)
    (ha : (tick pi ti opt h).1.state.armed = true) :
    Event.cut ∈ (tick pi ti opt h).2 := by
  rw [tick_armed] at ha
  have hmem := checkReceiver_cut_of_armed pi ti.rx h hd ht ha
  simp only [tick, List.mem_append]
  exact Or.inl (Or.inl (Or.inl (Or.inl (Or.inl hmem))))

/-- Tick input for the C8 witness: armed state maintained, new data,
throttle down. -/
def tiThrottle : TickInput := ⟨⟨false, true, true, true⟩, false, false, ⟨0, 0, 0⟩⟩

/-- C8 witness: concrete instantiation of `cut_on_throttle_down`. -/
theorem cut_on_throttle_down_witness :
    tiThrottle.rx.hasData = true ∧ tiThrottle.rx.throttleDown = true ∧
    (tick pi0 tiThrottle [] hArmed).1.state.armed = true ∧
    Event.cut ∈ (tick pi0 tiThrottle [] hArmed).2 :=
  ⟨rfl, rfl, rfl, cut_on_throttle_down pi0 tiThrottle [] hArmed rfl rfl rfl⟩

/-- Tick input for the C8 counterexample: signal fine, throttle down, arm
switch asserted, but `getDemands` reports no new data. -/
def tiNoData : TickInput := ⟨⟨false, false, true, true⟩, false, false, ⟨0, 0, 0⟩⟩

/-- C8 counterexample: state armed and receiver reporting throttle down,
yet the tick issues no `cut()` at all, because `checkReceiver` returns
early when `getDemands` reports no new receiver data — refuting "cut() is
invoked on every tick whenever armed and throttle is at minimum". -/
theorem cut_on_throttle_down_cex :
    hArmed.state.armed = true ∧ tiNoData.rx.throttleDown = true ∧
    Event.cut ∉ (tick pi0 tiNoData [] hArmed).2 := by
  refine ⟨rfl, rfl, ?_⟩
  decide

/-! ## C5: stage order within one update tick -/

/-- Every external call made by `checkReceiver` belongs to stage 0. -/
theorem checkReceiver_stage (pi : ℚ) (rx : RxInput) (h : HackflightState) :
    ∀ e ∈ (checkReceiver pi rx h).2, stageOf e = 0 := by
  intro e he
  simp only [checkReceiver] at he
  split_ifs at he <;> simp_all [List.mem_append] <;>
    rcases he with rfl | rfl <;> rfl

theorem opt_events_stage (opt : List Bool) :
    ∀ e ∈ opt.filterMap (fun b => if b = true then some Event.optRead else none),
      e = Event.optRead := by
  intro e he
  rw [List.mem_filterMap] at he
  obtain ⟨b, _, hb⟩ := he
  by_cases h : b = true <;> simp [h] at hb
  exact hb.symm

/-- C5 (amended): within a single `Hackflight::update` tick (full
variant), the stages run in source order: the receiver/arming check first,
then the PID-controllers task (the stabilizer stage feeding the actuator),
then the mandatory gyrometer and quaternion reads, then the optional
sensor set, then the serial task.  The event stream of a tick is
monotone in `stageOf`; the PID/stabilizer stage and the serial stage occur
in every tick.  In particular the sensor reads of a tick come after, not
before, the stabilizer stage of the same tick (the stabilizer consumes the
state written by previous ticks). -/
theorem tick_stage_order (pi : ℚ) (ti : TickInput) (opt : List Bool)
    (h : HackflightState) :
    ((tick pi ti opt h).2).Pairwise (fun a b => stageOf a ≤ stageOf b) ∧
    Event.pidUpdate ∈ (tick pi ti opt h).2 ∧
    Event.serialUpdate ∈ (tick pi ti opt h).2 := by
  have hrx := checkReceiver_stage pi ti.rx h
  have hopt := opt_events_stage opt
  refine ⟨?_, ?_, ?_⟩
  · simp only [tick]
    rw [List.append_assoc, List.append_assoc, List.append_assoc, List.append_assoc,
      List.pairwise_append]
    refine ⟨List.pairwise_of_forall_mem_list (fun a ha b hb => ?_), ?_, ?_⟩
    · rw [hrx a ha, hrx b hb]
    · rw [List.pairwise_append]
      refine ⟨by simp, ?_, ?_⟩
      · rw [List.pairwise_append]
        refine ⟨?_, ?_, ?_⟩
        · split_ifs <;> simp [List.Pairwise]
        · rw [List.pairwise_append]
          refine ⟨?_, ?_, ?_⟩
          · split_ifs <;> simp [List.Pairwise]
          · rw [List.pairwise_append]
            refine ⟨List.pairwise_of_forall_mem_list (fun a ha b hb => ?_), by simp, ?_⟩
            · rw [hopt a ha, hopt b hb]
            · intro a ha b hb
              rw [hopt a ha]
              simp at hb
              subst hb
              exact Nat.le_of_lt (by norm_num [stageOf])
          · intro a ha b hb
            have ha2 : a = Event.quatRead := by
              revert ha
              split_ifs <;> simp
            subst ha2
            rw [List.mem_append] at hb
            rcases hb with hb | hb
            · rw [hopt b hb]
              exact Nat.le_of_lt (by norm_num [stageOf])
            · simp at hb
              subst hb
              exact Nat.le_of_lt (by norm_num [stageOf])
        · intro a ha b hb
          have ha2 : a = Event.gyroRead := by
            revert ha
            split_ifs <;> simp
          subst ha2
          rw [List.mem_append] at hb
          rcases hb with hb | hb
          · have hb2 : b = Event.quatRead := by
              revert hb
              split_ifs <;> simp
            subst hb2
            exact Nat.le_of_lt (by norm_num [stageOf])
          · rw [List.mem_append] at hb
            rcases hb with hb | hb
            · rw [hopt b hb]
              exact Nat.le_of_lt (by norm_num [stageOf])
            · simp at hb
              subst hb
              exact Nat.le_of_lt (by norm_num [stageOf])
      · intro a ha b hb
        simp at ha
        subst ha
        rw [List.mem_append] at hb
        rcases hb with hb | hb
        · have hb2 : b = Event.gyroRead := by
            revert hb
            split_ifs <;> simp
          subst hb2
          exact Nat.le_of_lt (by norm_num [stageOf])
        · rw [List.mem_append] at hb
          rcases hb with hb | hb
          · have hb2 : b = Event.quatRead := by
              revert hb
              split_ifs <;> simp
            subst hb2
            exact Nat.le_of_lt (by norm_num [stageOf])
          · rw [List.mem_append] at hb
            rcases hb with hb | hb
            · rw [hopt b hb]
              exact Nat.le_of_lt (by norm_num [stageOf])
            · simp at hb
              subst hb
              exact Nat.le_of_lt (by norm_num [stageOf])
    · intro a ha b hb
      rw [hrx a ha]
      exact Nat.zero_le _
  · simp [tick]
  · simp [tick]

/-- Tick input for the C5 counterexample: both mandatory sensors ready. -/
def tiSensors : TickInput := ⟨⟨false, true, false, false⟩, true, true, ⟨0, 0, 0⟩⟩

/-- C5 counterexample: a concrete tick in which the gyrometer read occurs,
yet the PID/stabilizer stage comes strictly before it in the tick's event
stream — the claim that the sensor reads feeding the vehicle state precede
the stabilizer update within the same tick is false: `update()` runs
`_pidTask.update()` before `updateFull()`'s sensor reads. -/
theorem tick_stage_order_cex :
    (tick pi0 tiSensors [] initHackflight).2 =
      [Event.showArmed false, Event.pidUpdate, Event.gyroRead, Event.quatRead,
        Event.serialUpdate] ∧
    Event.gyroRead ∈ (tick pi0 tiSensors [] initHackflight).2 ∧
    (tick pi0 tiSensors [] initHackflight).2.indexOf Event.pidUpdate <
      (tick pi0 tiSensors [] initHackflight).2.indexOf Event.gyroRead := by
  refine ⟨by decide, by decide, by decide⟩

end hf
